import Mathlib

/-!
Verification of the PyMODA multiprocessing orchestration core against its
specification.

The development shallowly embeds:
* `terminate_tree` from `src/maths/multiprocessing/mp_utils.py` (process-tree
  termination with its try/except-NoSuchProcess/finally structure);
* the result-collection protocol: the drain loop of the `ResultCollector` is
  modelled from the spec (its implementation is not in the repository), while
  the completion test mirrors the per-item marking of
  `REPresenter.on_ridge_completed` / `on_filter_completed`
  (mark one signal's data, then fire the batch callback when every signal has
  data);
* the worker compute functions `_moda_dynamic_bayesian_inference`,
  `_dynamic_bayesian_inference` (`bayesian_inference.py`) and `_biphase`
  (`bispectrum_analysis.py`), with the external numerical kernels
  (MATLAB package, scipy, `maths.algorithms.*`) abstracted as black-box
  function parameters, since the repository only marshals data into them;
* the `JobDispatcher`, modelled from the spec (not in the repository).
-/

/- ## Process-tree termination (`mp_utils.terminate_tree`)

The psutil world is modelled by: the set of pids alive when
`psutil.Process(pid)` is called, the recursive-children enumeration, and
whether each enumerated child still exists when its `terminate()` is called
(a child may exit between enumeration and termination). -/

/-- The only exception relevant to `terminate_tree`: `psutil.NoSuchProcess`,
raised by `psutil.Process(pid)` on a dead pid and by `child.terminate()` on a
child that exited after enumeration. -/
inductive PsutilError where
  | noSuchProcess : Nat → PsutilError
deriving DecidableEq

/-- OS-process environment seen by one call of `terminate_tree`:
`alive` holds the pids that exist when `psutil.Process` is constructed,
`descendants pid` is the result of `children(recursive=True)`, and
`childAlive c` tells whether descendant `c` still exists when
`c.terminate()` is reached. -/
structure ProcEnv where
  alive : List Nat
  descendants : Nat → List Nat
  childAlive : Nat → Bool

/-- The `for child in ...children(recursive=True): child.terminate()` loop.
Returns the pids that were actually sent a termination request, paired with
the exception (if any) that aborted the loop: terminating a child that no
longer exists raises `NoSuchProcess` and the loop is abandoned there. -/
def terminateChildren (env : ProcEnv) : List Nat → List Nat × Option PsutilError
  | [] => ([], none)
  | c :: rest =>
    if env.childAlive c then
      let r := terminateChildren env rest
      (c :: r.1, r.2)
    else
      ([], some (PsutilError.noSuchProcess c))

/-- Embedding of `mp_utils.terminate_tree`:
`try:` look up the pid (raising `NoSuchProcess` when the process has already
exited) and terminate each recursive child; `except psutil.NoSuchProcess:
pass`; `finally: process.terminate()`. The result is the ordered list of
pids that were sent a termination request together with the exception that
escapes the call (always `none`: every raised exception is `NoSuchProcess`
and is caught). -/
def terminate_tree (env : ProcEnv) (pid : Nat) : List Nat × Option PsutilError :=
  let body :=
    if pid ∈ env.alive then
      terminateChildren env (env.descendants pid)
    else
      ([], some (PsutilError.noSuchProcess pid))
  let escaping : Option PsutilError :=
    match body.2 with
    | some (PsutilError.noSuchProcess _) => none
    | none => none
  (body.1 ++ [pid], escaping)

theorem terminateChildren_all_alive (env : ProcEnv) :
    ∀ l : List Nat, (∀ c ∈ l, env.childAlive c = true) →
      terminateChildren env l = (l, none) := by
  intro l
  induction l with
  | nil => intro _; rfl
  | cons c rest ih =>
    intro h
    have hc : env.childAlive c = true := h c (List.mem_cons_self c rest)
    have hrest : terminateChildren env rest = (rest, none) :=
      ih (fun x hx => h x (List.mem_cons_of_mem c hx))
    simp [terminateChildren, hc, hrest]

theorem terminateChildren_abandons (env : ProcEnv) :
    ∀ (l1 : List Nat) (c : Nat) (l2 : List Nat),
      (∀ x ∈ l1, env.childAlive x = true) → env.childAlive c = false →
      terminateChildren env (l1 ++ c :: l2) =
        (l1, some (PsutilError.noSuchProcess c)) := by
  intro l1
  induction l1 with
  | nil =>
    intro c l2 _ hc
    simp [terminateChildren, hc]
  | cons a rest ih =>
    intro c l2 h1 hc
    have ha : env.childAlive a = true := h1 a (List.mem_cons_self a rest)
    have hrest := ih c l2 (fun x hx => h1 x (List.mem_cons_of_mem a hx)) hc
    simp [terminateChildren, ha, hrest]

/-- **C3.** When the worker process is alive at call time and every
discovered descendant still exists when its turn comes, `terminate_tree`
sends a termination request to every process transitively spawned by the
worker and to the worker itself, and raises nothing. -/
theorem terminate_tree_requests_all (env : ProcEnv) (pid : Nat)
    (halive : pid ∈ env.alive)
    (hkids : ∀ c ∈ env.descendants pid, env.childAlive c = true) :
    (terminate_tree env pid).1 = env.descendants pid ++ [pid] ∧
      (terminate_tree env pid).2 = none := by
  have hloop := terminateChildren_all_alive env (env.descendants pid) hkids
  constructor
  · simp [terminate_tree, halive, hloop]
  · simp [terminate_tree, halive, hloop]

/-- Concrete instance for C3: pid 1 alive with descendants 2 and 3, all
alive; requests go to 2, 3 and finally 1, and nothing is raised. -/
def envAllAlive : ProcEnv :=
  ⟨[1], fun p => if p = 1 then [2, 3] else [], fun _ => true⟩

theorem terminate_tree_requests_all_witness :
    (terminate_tree envAllAlive 1).1 = envAllAlive.descendants 1 ++ [1] ∧
      (terminate_tree envAllAlive 1).2 = none :=
  terminate_tree_requests_all envAllAlive 1 (by decide) (by decide)

/-- **C4.** When the worker process has already exited,
`terminate_tree` raises nothing: no descendant is touched (the dead target
is an empty descendant set) and the handle's own process is still asked to
terminate. -/
theorem terminate_tree_dead_target (env : ProcEnv) (pid : Nat)
    (hdead : pid ∉ env.alive) :
    terminate_tree env pid = ([pid], none) := by
  simp [terminate_tree, hdead]

/-- Concrete instance for C4: pid 7 is not alive; the call degenerates to a
single termination request on 7 itself and raises nothing. -/
theorem terminate_tree_dead_target_witness :
    terminate_tree envAllAlive 7 = ([7], none) :=
  terminate_tree_dead_target envAllAlive 7 (by decide)

/-- **C5.** In every call of `terminate_tree` — descendants terminated,
none found, or the attempt aborted by an exception — the last termination
request issued is to the handle's own process, and the call returns without
raising. -/
theorem terminate_tree_self_last (env : ProcEnv) (pid : Nat) :
    ((terminate_tree env pid).1).getLast? = some pid ∧
      (terminate_tree env pid).2 = none := by
  constructor
  · show ((terminate_tree env pid).1).getLast? = some pid
    have h1 : (terminate_tree env pid).1 =
        (if pid ∈ env.alive then
          terminateChildren env (env.descendants pid)
        else ([], some (PsutilError.noSuchProcess pid))).1 ++ [pid] := rfl
    rw [h1, List.getLast?_concat]
  · show (terminate_tree env pid).2 = none
    unfold terminate_tree
    cases h : (if pid ∈ env.alive then
        terminateChildren env (env.descendants pid)
      else ([], some (PsutilError.noSuchProcess pid))).2 with
    | none => simp [h]
    | some e => cases e with
      | noSuchProcess q => simp [h]

/-- **C10.** When a discovered descendant vanishes between enumeration and
termination, the loop is abandoned (the descendants after it receive no
request), yet the worker's own process is still terminated and the call
returns without raising. -/
theorem terminate_tree_child_vanishes (env : ProcEnv) (pid c : Nat)
    (l1 l2 : List Nat)
    (halive : pid ∈ env.alive)
    (hdesc : env.descendants pid = l1 ++ c :: l2)
    (h1 : ∀ x ∈ l1, env.childAlive x = true)
    (hc : env.childAlive c = false) :
    terminate_tree env pid = (l1 ++ [pid], none) := by
  have hloop := terminateChildren_abandons env l1 c l2 h1 hc
  simp [terminate_tree, halive, hdesc, hloop]

/-- Concrete instance for C10: descendants of 1 are 2, 3, 4; child 3 exits
before its `terminate()`: only 2 gets a request, 4 is skipped, 1 is still
terminated, nothing is raised. -/
def envChildGone : ProcEnv :=
  ⟨[1], fun p => if p = 1 then [2, 3, 4] else [], fun c => decide (c = 2)⟩

theorem terminate_tree_child_vanishes_witness :
    terminate_tree envChildGone 1 = ([2] ++ [1], none) :=
  terminate_tree_child_vanishes envChildGone 1 3 [2] [4]
    (by decide) (by decide) (by decide) (by decide)

/- ## Result collection

`ResultCollector.collect` itself is not in the repository; its drain loop is
modelled from the spec. The per-item completion accounting mirrors
`REPresenter.on_ridge_completed` / `on_filter_completed`: a result for signal
`name` marks that signal's output data, and the batch callback fires when
`all([i.output_data.has_ridge_data() for i in self.signals])` holds. -/

/-- Collector state for one batch: the names whose output data has been set
(the `completed` set), the number of times `on_batch_complete` has been
invoked, whether the drain loop is still running, and how many protocol
warnings have been logged. -/
structure CollectorState where
  completed : List String
  fired : Nat
  draining : Bool
  warnings : Nat
deriving DecidableEq

/-- Mark one signal's output data as present. Setting data for a signal that
already has data leaves the completed set unchanged (the marking is
idempotent, as with `TFOutputData.set_ridge_data`). -/
def markCompleted (completed : List String) (name : String) : List String :=
  if name ∈ completed then completed else name :: completed

/-- The completion test of `REPresenter.on_ridge_completed`:
`all([i.output_data.has_ridge_data() for i in self.signals])`. -/
def batchDone (signals completed : List String) : Bool :=
  signals.all (fun n => decide (n ∈ completed))

/-- Modelled from the spec: one step of the `ResultCollector` drain loop
(the collector implementation is not in the repository). For a ResultTuple
`r` received while draining: its correlation key is its first element; a key
matching no submitted item is discarded with a logged warning; otherwise the
item is marked completed, and if `completed == submitted` the batch callback
fires exactly once and the loop stops draining. After draining stops,
arriving tuples are not processed. -/
def collectStep {π : Type} (signals : List String) (s : CollectorState)
    (r : String × π) : CollectorState :=
  if s.draining then
    if r.1 ∈ signals then
      let comp := markCompleted s.completed r.1
      if batchDone signals comp then
        { completed := comp, fired := s.fired + 1, draining := false,
          warnings := s.warnings }
      else
        { s with completed := comp }
    else
      { s with warnings := s.warnings + 1 }
  else s

/-- Modelled from the spec: the collector drains the delivered ResultTuples
in arrival order. -/
def collectRun {π : Type} (signals : List String) (s : CollectorState) :
    List (String × π) → CollectorState
  | [] => s
  | r :: rest => collectRun signals (collectStep signals s r) rest

/-- Collector state at batch submission: nothing completed, callback not yet
fired, drain loop running. -/
def initState : CollectorState := ⟨[], 0, true, 0⟩

theorem collectRun_frozen {π : Type} (signals : List String) :
    ∀ (rs : List (String × π)) (s : CollectorState), s.draining = false →
      collectRun signals s rs = s := by
  intro rs
  induction rs with
  | nil => intro s _; rfl
  | cons r rest ih =>
    intro s hs
    have hstep : collectStep signals s r = s := by
      simp [collectStep, hs]
    simp [collectRun, hstep, ih s hs]

theorem collectRun_append {π : Type} (signals : List String) :
    ∀ (l1 l2 : List (String × π)) (s : CollectorState),
      collectRun signals s (l1 ++ l2) =
        collectRun signals (collectRun signals s l1) l2 := by
  intro l1
  induction l1 with
  | nil => intro l2 s; rfl
  | cons r rest ih => intro l2 s; simp [collectRun, ih]

theorem mem_markCompleted (completed : List String) (name x : String) :
    x ∈ markCompleted completed name ↔ x = name ∨ x ∈ completed := by
  unfold markCompleted
  by_cases h : name ∈ completed
  · simp only [if_pos h]
    constructor
    · intro hx; exact Or.inr hx
    · intro hx
      cases hx with
      | inl he => rw [he]; exact h
      | inr hm => exact hm
  · simp [if_neg h, List.mem_cons]

/-- Progress: while the loop drains with the callback unfired and the batch
not yet done, a stream covering every still-missing signal fires the
callback exactly once and stops the loop. -/
theorem collectRun_fires {π : Type} (signals : List String) :
    ∀ (rs : List (String × π)) (s : CollectorState),
      s.draining = true → s.fired = 0 →
      (∀ n ∈ signals, n ∈ s.completed ∨ n ∈ rs.map Prod.fst) →
      batchDone signals s.completed = false →
      (collectRun signals s rs).fired = 1 ∧
        (collectRun signals s rs).draining = false := by
  intro rs
  induction rs with
  | nil =>
    intro s _ _ hcover hnotdone
    exfalso
    have : batchDone signals s.completed = true := by
      unfold batchDone
      rw [List.all_eq_true]
      intro n hn
      have := hcover n hn
      simp only [List.map_nil, List.not_mem_nil, or_false] at this
      simpa using this
    rw [this] at hnotdone
    simp at hnotdone
  | cons r rest ih =>
    intro s hdrain hfired hcover hnotdone
    by_cases hk : r.1 ∈ signals
    · set comp := markCompleted s.completed r.1 with hcomp
      by_cases hdone : batchDone signals comp = true
      · have hstep : collectStep signals s r =
            { completed := comp, fired := s.fired + 1, draining := false,
              warnings := s.warnings } := by
          simp [collectStep, hdrain, hk, ← hcomp, hdone]
        have hfrozen := collectRun_frozen signals rest
          { completed := comp, fired := s.fired + 1, draining := false,
            warnings := s.warnings } rfl
        constructor
        · show (collectRun signals (collectStep signals s r) rest).fired = 1
          rw [hstep, hfrozen]
          simp [hfired]
        · show (collectRun signals (collectStep signals s r) rest).draining = false
          rw [hstep, hfrozen]
      · have hdone' : batchDone signals comp = false := by
          cases h : batchDone signals comp with
          | false => rfl
          | true => exact absurd h hdone
        have hstep : collectStep signals s r = { s with completed := comp } := by
          simp [collectStep, hdrain, hk, ← hcomp, hdone']
        have hcover' : ∀ n ∈ signals,
            n ∈ comp ∨ n ∈ rest.map Prod.fst := by
          intro n hn
          cases hcover n hn with
          | inl hc =>
            exact Or.inl ((mem_markCompleted s.completed r.1 n).mpr (Or.inr hc))
          | inr hm =>
            simp only [List.map_cons, List.mem_cons] at hm
            cases hm with
            | inl he =>
              exact Or.inl ((mem_markCompleted s.completed r.1 n).mpr (Or.inl he))
            | inr hr => exact Or.inr hr
        have := ih { s with completed := comp } hdrain hfired hcover' hdone'
        simpa [collectRun, hstep] using this
    · have hstep : collectStep signals s r =
          { s with warnings := s.warnings + 1 } := by
        simp [collectStep, hdrain, hk]
      have hcover' : ∀ n ∈ signals,
          n ∈ s.completed ∨ n ∈ rest.map Prod.fst := by
        intro n hn
        cases hcover n hn with
        | inl hc => exact Or.inl hc
        | inr hm =>
          simp only [List.map_cons, List.mem_cons] at hm
          cases hm with
          | inl he => exact absurd (he ▸ hn) hk
          | inr hr => exact Or.inr hr
      have := ih { s with warnings := s.warnings + 1 } hdrain hfired hcover' hnotdone
      simpa [collectRun, hstep] using this

theorem batchDone_init_false (signals : List String) (hne : signals ≠ []) :
    batchDone signals [] = false := by
  cases signals with
  | nil => exact absurd rfl hne
  | cons a rest => simp [batchDone]

/-- **C1.** For every non-empty batch, once a result has been delivered for
every submitted item — in any order, junk and duplicates allowed — the
batch-completion callback has been invoked exactly once; results arriving
after completion do not invoke it again. -/
theorem collector_completes_exactly_once {π : Type}
    (signals : List String) (results extra : List (String × π))
    (hne : signals ≠ [])
    (hcover : ∀ n ∈ signals, n ∈ results.map Prod.fst) :
    (collectRun signals initState results).fired = 1 ∧
      (collectRun signals initState (results ++ extra)).fired = 1 := by
  have hfire := collectRun_fires signals results initState rfl rfl
    (fun n hn => Or.inr (hcover n hn)) (batchDone_init_false signals hne)
  constructor
  · exact hfire.1
  · rw [collectRun_append]
    rw [collectRun_frozen signals extra _ hfire.2]
    exact hfire.1

/-- Concrete instance for C1: three signals, results delivered in reverse
submission order, one straggler after completion: the callback fires exactly
once. -/
theorem collector_completes_exactly_once_witness :
    (collectRun ["sigA", "sigB", "sigC"] initState
      [("sigC", 42), ("sigB", 42), ("sigA", 42)]).fired = 1 ∧
    (collectRun ["sigA", "sigB", "sigC"] initState
      ([("sigC", 42), ("sigB", 42), ("sigA", 42)] ++ [("sigA", 7)])).fired = 1 :=
  collector_completes_exactly_once ["sigA", "sigB", "sigC"]
    [("sigC", 42), ("sigB", 42), ("sigA", 42)] [("sigA", 7)]
    (by decide) (by decide)

/-- While some signal `n0` never appears among the delivered keys and is not
yet completed, no step can fire the callback and `n0` stays missing. -/
theorem collectRun_no_fire {π : Type} (signals : List String) (n0 : String)
    (hmem : n0 ∈ signals) :
    ∀ (rs : List (String × π)) (s : CollectorState),
      n0 ∉ rs.map Prod.fst → n0 ∉ s.completed →
      (collectRun signals s rs).fired = s.fired ∧
        n0 ∉ (collectRun signals s rs).completed := by
  intro rs
  induction rs with
  | nil => intro s _ hs; exact ⟨rfl, hs⟩
  | cons r rest ih =>
    intro s hr hs
    have hne : n0 ≠ r.1 := by
      intro he
      apply hr
      simp [he]
    have hrest : n0 ∉ rest.map Prod.fst := by
      intro hx
      apply hr
      simp [hx]
    by_cases hdrain : s.draining = true
    · by_cases hk : r.1 ∈ signals
      · have hnc : n0 ∉ markCompleted s.completed r.1 := by
          intro hx
          cases (mem_markCompleted s.completed r.1 n0).mp hx with
          | inl he => exact hne he
          | inr hm => exact hs hm
        have hdone : batchDone signals (markCompleted s.completed r.1) = false := by
          cases h : batchDone signals (markCompleted s.completed r.1) with
          | false => rfl
          | true =>
            exfalso
            unfold batchDone at h
            rw [List.all_eq_true] at h
            have := h n0 hmem
            simp at this
            exact hnc this
        have hstep : collectStep signals s r =
            { s with completed := markCompleted s.completed r.1 } := by
          simp [collectStep, hdrain, hk, hdone]
        have := ih { s with completed := markCompleted s.completed r.1 } hrest hnc
        show (collectRun signals (collectStep signals s r) rest).fired = s.fired ∧
          n0 ∉ (collectRun signals (collectStep signals s r) rest).completed
        rw [hstep]
        exact this
      · have hstep : collectStep signals s r =
            { s with warnings := s.warnings + 1 } := by
          simp [collectStep, hdrain, hk]
        have := ih { s with warnings := s.warnings + 1 } hrest hs
        show (collectRun signals (collectStep signals s r) rest).fired = s.fired ∧
          n0 ∉ (collectRun signals (collectStep signals s r) rest).completed
        rw [hstep]
        exact this
    · have hdrain' : s.draining = false := by
        cases h : s.draining with
        | false => rfl
        | true => exact absurd h hdrain
      have hstep : collectStep signals s r = s := by
        simp [collectStep, hdrain']
      have := ih s hrest hs
      show (collectRun signals (collectStep signals s r) rest).fired = s.fired ∧
        n0 ∉ (collectRun signals (collectStep signals s r) rest).completed
      rw [hstep]
      exact this

/-- **C2.** For a batch of N items, if some submitted item never has a
result delivered (so at most N-1 distinct items ever report), the
batch-completion callback is never invoked. -/
theorem collector_no_false_completion {π : Type}
    (signals : List String) (results : List (String × π)) (n0 : String)
    (hmem : n0 ∈ signals) (hnever : n0 ∉ results.map Prod.fst) :
    (collectRun signals initState results).fired = 0 :=
  (collectRun_no_fire signals n0 hmem results initState hnever
    (by simp [initState])).1

/-- Concrete instance for C2: two submitted items, only one ever reports
(even twice): the callback never fires. -/
theorem collector_no_false_completion_witness :
    (collectRun ["sigA", "sigB"] initState
      [("sigA", 1), ("sigA", 2)]).fired = 0 :=
  collector_no_false_completion ["sigA", "sigB"]
    [("sigA", 1), ("sigA", 2)] "sigB" (by decide) (by decide)

/-- The accounting fields of the collector state (everything except the
warning log). -/
def coreOf (s : CollectorState) : List String × Nat × Bool :=
  (s.completed, s.fired, s.draining)

theorem collectStep_core_congr {π : Type} (signals : List String)
    (s t : CollectorState) (r : String × π) (h : coreOf s = coreOf t) :
    coreOf (collectStep signals s r) = coreOf (collectStep signals t r) := by
  unfold coreOf at h
  have hcompleted : s.completed = t.completed := congrArg Prod.fst h
  have hfired : s.fired = t.fired := congrArg Prod.fst (congrArg Prod.snd h)
  have hdraining : s.draining = t.draining := congrArg Prod.snd (congrArg Prod.snd h)
  unfold collectStep coreOf
  rw [hcompleted, hfired, hdraining]
  by_cases hd : t.draining
  · by_cases hk : r.1 ∈ signals
    · by_cases hdone : batchDone signals (markCompleted t.completed r.1) = true
      · simp [hd, hk, hdone]
      · simp [hd, hk, hdone]
    · simp [hd, hk]
  · have hdf : t.draining = false := by
      cases h2 : t.draining with
      | false => rfl
      | true => exact absurd h2 hd
    simp [hd]
    exact ⟨hcompleted, hfired, hdraining.trans hdf⟩

theorem collectStep_junk_core {π : Type} (signals : List String)
    (s : CollectorState) (r : String × π) (hk : r.1 ∉ signals) :
    coreOf (collectStep signals s r) = coreOf s := by
  unfold collectStep coreOf
  by_cases hd : s.draining
  · simp [hd, hk]
  · simp [hd]

/-- Dropping the unmatched tuples from the stream leaves the completed set,
the fired count and the draining flag of the final state unchanged. -/
theorem collectRun_filter_core {π : Type} (signals : List String) :
    ∀ (rs : List (String × π)) (s t : CollectorState), coreOf s = coreOf t →
      coreOf (collectRun signals s rs) =
        coreOf (collectRun signals t
          (rs.filter (fun r => decide (r.1 ∈ signals)))) := by
  intro rs
  induction rs with
  | nil => intro s t h; exact h
  | cons r rest ih =>
    intro s t h
    by_cases hk : r.1 ∈ signals
    · have hfilter : (r :: rest).filter (fun x => decide (x.1 ∈ signals)) =
          r :: rest.filter (fun x => decide (x.1 ∈ signals)) := by
        simp [List.filter_cons, hk]
      rw [hfilter]
      show coreOf (collectRun signals (collectStep signals s r) rest) =
        coreOf (collectRun signals (collectStep signals t r)
          (rest.filter (fun x => decide (x.1 ∈ signals))))
      exact ih (collectStep signals s r) (collectStep signals t r)
        (collectStep_core_congr signals s t r h)
    · have hfilter : (r :: rest).filter (fun x => decide (x.1 ∈ signals)) =
          rest.filter (fun x => decide (x.1 ∈ signals)) := by
        simp [List.filter_cons, hk]
      rw [hfilter]
      show coreOf (collectRun signals (collectStep signals s r) rest) =
        coreOf (collectRun signals t
          (rest.filter (fun x => decide (x.1 ∈ signals))))
      apply ih
      rw [collectStep_junk_core signals s r hk]
      exact h

/-- **C6.** A ResultTuple whose correlation key matches no submitted item is
discarded: processing the full stream yields the same completed set and
fired count as processing only the genuine tuples (the collector, a total
function, does not crash), and the batch still completes exactly once when
every genuine item reports in. -/
theorem collector_discards_unmatched {π : Type}
    (signals : List String) (results : List (String × π))
    (hne : signals ≠ [])
    (hcover : ∀ n ∈ signals, n ∈ results.map Prod.fst) :
    (collectRun signals initState results).completed =
      (collectRun signals initState
        (results.filter (fun r => decide (r.1 ∈ signals)))).completed ∧
    (collectRun signals initState results).fired =
      (collectRun signals initState
        (results.filter (fun r => decide (r.1 ∈ signals)))).fired ∧
    (collectRun signals initState results).fired = 1 := by
  have hcore := collectRun_filter_core signals results initState initState rfl
  have hfire := collectRun_fires signals results initState rfl rfl
    (fun n hn => Or.inr (hcover n hn)) (batchDone_init_false signals hne)
  refine ⟨?_, ?_, hfire.1⟩
  · exact congrArg Prod.fst hcore
  · exact congrArg Prod.fst (congrArg Prod.snd hcore)

/-- Concrete instance for C6: a tuple keyed "ghost" arrives between the two
genuine results; it changes nothing in the accounting and the batch still
completes exactly once. -/
theorem collector_discards_unmatched_witness :
    (collectRun ["sigA", "sigB"] initState
      [("sigA", 10), ("ghost", 99), ("sigB", 20)]).completed =
      (collectRun ["sigA", "sigB"] initState
        ([("sigA", 10), ("ghost", 99), ("sigB", 20)].filter
          (fun r => decide (r.1 ∈ ["sigA", "sigB"])))).completed ∧
    (collectRun ["sigA", "sigB"] initState
      [("sigA", 10), ("ghost", 99), ("sigB", 20)]).fired =
      (collectRun ["sigA", "sigB"] initState
        ([("sigA", 10), ("ghost", 99), ("sigB", 20)].filter
          (fun r => decide (r.1 ∈ ["sigA", "sigB"])))).fired ∧
    (collectRun ["sigA", "sigB"] initState
      [("sigA", 10), ("ghost", 99), ("sigB", 20)]).fired = 1 :=
  collector_discards_unmatched ["sigA", "sigB"]
    [("sigA", 10), ("ghost", 99), ("sigB", 20)] (by decide) (by decide)

/- ## Worker compute functions

`_moda_dynamic_bayesian_inference` and `_dynamic_bayesian_inference`
(`bayesian_inference.py`) write their ResultTuple to the shared queue
themselves; `_biphase` (`bispectrum_analysis.py`) returns its ResultTuple,
which the `@process` decorator (modelled from the spec, its implementation is
not in the repository) writes to the queue. Array values and external
numerical kernels (MATLAB package, scipy, `maths.algorithms.*`) are opaque:
they are abstracted as black-box function parameters over a value type `α`.
Each embedding returns the list of queue writes together with the parameter
object as it stands after the call. -/

/-- `maths.signals.TimeSeries`: a named signal with a sampling frequency. -/
structure TimeSeries (α : Type) where
  name : String
  signal : α
  frequency : α

/-- `gui.windows.bayesian.ParamSet` as consumed by the two Bayesian compute
functions (fields as read by `bayesian_inference.py`; the class itself is
not in the repository). Iteration counts are `Nat`. -/
structure ParamSet (α : Type) where
  freq_range1 : α × α
  freq_range2 : α × α
  window : α
  propagation_const : α
  overlap : α
  order : α
  surr_count : Nat
  confidence_level : α

/-- Python dict lookup `d[k]` on an association list (`none` models a
`KeyError`). -/
def dictGet {α : Type} (d : List (String × α)) (k : String) : Option α :=
  match d with
  | [] => none
  | p :: rest => if p.1 = k then some p.2 else dictGet rest k

/-- Python dict assignment `d[k] = v`: replace the value at `k` in place, or
append the binding when `k` is absent. -/
def dictSet {α : Type} (d : List (String × α)) (k : String) (v : α) :
    List (String × α) :=
  match d with
  | [] => [(k, v)]
  | p :: rest => if p.1 = k then (k, v) :: rest else p :: dictSet rest k v

/-- Python `del d[k]`. -/
def dictDel {α : Type} (d : List (String × α)) (k : String) :
    List (String × α) :=
  match d with
  | [] => []
  | p :: rest => if p.1 = k then dictDel rest k else p :: dictDel rest k

theorem dictGet_set_self {α : Type} (d : List (String × α)) (k : String)
    (v : α) : dictGet (dictSet d k v) k = some v := by
  induction d with
  | nil => simp [dictGet, dictSet]
  | cons p rest ih =>
    by_cases h : p.1 = k
    · simp [dictGet, dictSet, h]
    · simp [dictGet, dictSet, h, ih]

theorem dictGet_set_ne {α : Type} (d : List (String × α)) (k k2 : String)
    (v : α) (hne : k2 ≠ k) : dictGet (dictSet d k v) k2 = dictGet d k2 := by
  have hkk2 : ¬(k = k2) := fun he => hne he.symm
  induction d with
  | nil => simp [dictGet, dictSet, hkk2]
  | cons p rest ih =>
    by_cases h : p.1 = k
    · have hp2 : ¬(p.1 = k2) := by rw [h]; exact hkk2
      simp [dictGet, dictSet, h, hkk2, hp2]
    · by_cases h2 : p.1 = k2
      · simp [dictGet, dictSet, h, h2, hne]
      · simp [dictGet, dictSet, h, h2, ih]

theorem dictGet_del_self {α : Type} (d : List (String × α)) (k : String) :
    dictGet (dictDel d k) k = none := by
  induction d with
  | nil => simp [dictGet, dictDel]
  | cons p rest ih =>
    by_cases h : p.1 = k
    · simp [dictDel, h, ih]
    · simp [dictGet, dictDel, h, ih]

theorem dictGet_del_ne {α : Type} (d : List (String × α)) (k k2 : String)
    (hne : k2 ≠ k) : dictGet (dictDel d k) k2 = dictGet d k2 := by
  have hkk2 : ¬(k = k2) := fun he => hne he.symm
  induction d with
  | nil => simp [dictGet, dictDel]
  | cons p rest ih =>
    by_cases h : p.1 = k
    · have hp2 : ¬(p.1 = k2) := by rw [h]; exact hkk2
      simp [dictGet, dictDel, h, hkk2, hp2, ih]
    · by_cases h2 : p.1 = k2
      · simp [dictGet, dictDel, h, h2, hne]
      · simp [dictGet, dictDel, h, h2, ih]

/-- External collaborators of `_moda_dynamic_bayesian_inference`: the
MATLAB marshalling (`matlab.double`, `.tolist()`) and the packaged
`full_bayesian` kernel, whose result sequence is spread into the
ResultTuple. -/
structure ModaBayesEnv (α : Type) where
  matlabDouble : α → α
  tolist : α → α
  full_bayesian : α → α → α → α → α → α → α → α → α → α → α → Nat → α →
    List α

/-- Embedding of `_moda_dynamic_bayesian_inference`
(`bayesian_inference.py` lines 33-56): marshal the two signals, read the
parameter fields, call the packaged kernel, and `queue.put`
`(signal1.name, *result)`. Returns the queue writes and the parameter
object after the call (the function only reads `params`). -/
def _moda_dynamic_bayesian_inference {α : Type} (env : ModaBayesEnv α)
    (signal1 signal2 : TimeSeries α) (params : ParamSet α) :
    List (String × List α) × ParamSet α :=
  let sig1 := env.matlabDouble (env.tolist signal1.signal)
  let sig2 := env.matlabDouble (env.tolist signal2.signal)
  let int1 := params.freq_range1
  let int2 := params.freq_range2
  let fs := signal1.frequency
  let win := params.window
  let pr := params.propagation_const
  let ovr := params.overlap
  let bn := params.order
  let ns := params.surr_count
  let signif := params.confidence_level
  let result := env.full_bayesian sig1 sig2 int1.1 int1.2 int2.1 int2.2 fs
    win pr ovr bn ns signif
  ([(signal1.name, result)], params)

/-- External collaborators of `_dynamic_bayesian_inference`: scipy/numpy
kernels and the `maths.algorithms` routines, as black boxes over `α`.
`bayes_main` yields `(tm, cc, e)` with `cc` a list of rows; `floorZero`
and `kIndex` abstract the float test `np.floor((ns + 1) * alph) == 0` and
the index `K`; `packList` assembles an array value from computed entries. -/
structure BayesEnv (α : Type) where
  zero : α
  loop_butter : α → α → α → α → α × α
  hilbert : α → α
  angle : α → α
  bayes_main : α → α → α → α → α → α → Nat → α → α × List α × α
  dirc : α → α → α × α × α
  CFprint : α → α → α × α × α × α
  mean2 : List α → α
  squeeze : α → α
  surrogate_calc : α → Nat → String → Nat → α → List α × α
  oneOver : α → α
  floorZero : Nat → α → Bool
  kIndex : Nat → α → Nat
  sort2dDescend : List (List α) → List (List α)
  maxOf : List (List α) → α
  selectRow : List (List α) → Nat → α
  packList : List α → α

/-- Embedding of `_dynamic_bayesian_inference` (`bayesian_inference.py`
lines 59-157): band-pass both signals, run the Bayesian inference and the
surrogate loop, and `queue.put` the twelve-element ResultTuple headed by
`signal1.name`. The per-row loops over `range(N)` and `range(ns)` that fill
`cpl1`, `cpl2`, `q21`, `q12`, `scpl1`, `scpl2` become list maps. Returns
the queue writes and the parameter object after the call (the function only
reads `params`). -/
def _dynamic_bayesian_inference {α : Type} (env : BayesEnv α)
    (signal1 signal2 : TimeSeries α) (params : ParamSet α) :
    List (String × List α) × ParamSet α :=
  let sig1 := signal1.signal
  let sig2 := signal2.signal
  let fs := signal1.frequency
  let interval1 := params.freq_range1
  let interval2 := params.freq_range2
  let bn := params.order
  let bands1 := (env.loop_butter sig1 interval1.1 interval1.2 fs).1
  let phi1 := env.angle (env.hilbert bands1)
  let bands2 := (env.loop_butter sig2 interval2.1 interval2.2 fs).1
  let phi2 := env.angle (env.hilbert bands2)
  let p1 := phi1
  let p2 := phi2
  let win := params.window
  let ovr := params.overlap
  let pr := params.propagation_const
  let signif := params.confidence_level
  let mainRes := env.bayes_main phi1 phi2 win (env.oneOver fs) ovr pr 0 bn
  let tm := mainRes.1
  let cc := mainRes.2.1
  let cpl1 := cc.map (fun row => (env.dirc row bn).1)
  let cpl2 := cc.map (fun row => (env.dirc row bn).2.1)
  let q21 := cc.map (fun row => (env.CFprint row bn).2.2.1)
  let q12 := cc.map (fun row => (env.CFprint row bn).2.2.2)
  let cf1 := q21
  let cf2 := q12
  let mcf1 := env.squeeze (env.mean2 q21)
  let mcf2 := env.squeeze (env.mean2 q12)
  let ns := params.surr_count
  let surr1 := (env.surrogate_calc phi1 ns "CPP" 0 fs).1
  let surr2 := (env.surrogate_calc phi2 ns "CPP" 0 fs).1
  let ccSurr := (List.range ns).map (fun n =>
    (env.bayes_main (surr1.getD n env.zero) (surr2.getD n env.zero) win
      (env.oneOver fs) ovr pr 1 bn).2.1)
  let scpl1 := ccSurr.map (fun rows => rows.map (fun c => (env.dirc c bn).1))
  let scpl2 := ccSurr.map (fun rows => rows.map (fun c => (env.dirc c bn).2.1))
  let surrCpl1 :=
    if env.floorZero ns signif then env.maxOf scpl1
    else env.selectRow (env.sort2dDescend scpl1) (env.kIndex ns signif)
  let surrCpl2 :=
    if env.floorZero ns signif then env.maxOf scpl2
    else env.selectRow (env.sort2dDescend scpl2) (env.kIndex ns signif)
  ([(signal1.name,
    [tm, p1, p2, env.packList cpl1, env.packList cpl2, env.packList cf1,
      env.packList cf2, mcf1, mcf2, surrCpl1, surrCpl2])], params)

/-- External collaborators of `_biphase`: MATLAB marshalling and the
`biphase_wav_new.calculate` kernel. `calculate` returns `(biamp, biphase)`;
`toNumpy2` is `multi_matlab_to_numpy` on such a pair; `lengthOf` is
`biamp1.shape[1]` and `reshape` the `ndarray.reshape(l)` call;
`complexList` is the `[complex(i) for i in v]` comprehension with
`realPart`/`imagPart` the `.real`/`.imag` projections. -/
structure BiphaseEnv (α : Type) where
  matlabDouble : α → α
  tolist : α → α
  complexList : α → List α
  realPart : α → α
  imagPart : α → α
  packList : List α → α
  calculate : α → α → α → α → α × α → List (String × α) → α × α
  toNumpy2 : α × α → α × α
  lengthOf : α → Nat
  reshape : α → Nat → α

/-- Embedding of `_biphase` (`bispectrum_analysis.py` lines 29-122): rebind
`opt["PadLR1"]`/`opt["PadLR2"]`, split `opt["twf1"]`/`opt["twf2"]` into
real/imaginary parts (deleting the originals and adding
`twf1r`/`twf2r`/`twf1i`/`twf2i`), run the four `biphase_wav_new.calculate`
calls on the mutated `opt`, and return the ResultTuple `(name, *fr,
biamp1, biphase1, ..., biamp4, biphase4)`, which the `@process` decorator
(modelled from the spec) writes to the result queue as the single queue
write of the worker. A missing dict key is a `KeyError`, modelled by
`none`. The result pairs the queue writes with the `opt` dict as it stands
after the call. -/
def biphasePadOpt {α : Type} (env : BiphaseEnv α) (opt : List (String × α))
    (pad1 pad2 : α) : List (String × α) :=
  dictSet (dictSet opt "PadLR1" (env.matlabDouble (env.tolist pad1)))
    "PadLR2" (env.matlabDouble (env.tolist pad2))

def _biphase {α : Type} (env : BiphaseEnv α) (sig1 sig2 : TimeSeries α)
    (fs f0 : α) (fr : α × α) (opt : List (String × α)) :
    Option (List (String × List α) × List (String × α)) :=
  match dictGet opt "PadLR1" with
  | none => none
  | some pad1 =>
    match dictGet (dictSet opt "PadLR1"
        (env.matlabDouble (env.tolist pad1))) "PadLR2" with
    | none => none
    | some pad2 =>
      match dictGet (biphasePadOpt env opt pad1 pad2) "twf1" with
      | none => none
      | some t1 =>
        match dictGet (biphasePadOpt env opt pad1 pad2) "twf2" with
        | none => none
        | some t2 =>
          let opt2 := biphasePadOpt env opt pad1 pad2
          let twf1 := env.complexList t1
          let twf2 := env.complexList t2
          let twf1r := twf1.map env.realPart
          let twf2r := twf2.map env.realPart
          let twf1i := twf1.map env.imagPart
          let twf2i := twf2.map env.imagPart
          let opt3 := dictDel opt2 "twf1"
          let opt4 := dictDel opt3 "twf2"
          let opt5 := dictSet opt4 "twf1r" (env.matlabDouble (env.packList twf1r))
          let opt6 := dictSet opt5 "twf2r" (env.matlabDouble (env.packList twf2r))
          let opt7 := dictSet opt6 "twf1i" (env.matlabDouble (env.packList twf1i))
          let opt8 := dictSet opt7 "twf2i" (env.matlabDouble (env.packList twf2i))
          let sig1list := env.tolist sig1.signal
          let sig2list := env.tolist sig2.signal
          let r1 := env.toNumpy2 (env.calculate sig1list sig1list fs f0 fr opt8)
          let r2 := env.toNumpy2 (env.calculate sig2list sig2list fs f0 fr opt8)
          let r3 := env.toNumpy2 (env.calculate sig1list sig2list fs f0 fr opt8)
          let r4 := env.toNumpy2 (env.calculate sig2list sig1list fs f0 fr opt8)
          let l := env.lengthOf r1.1
          some ([(sig1.name,
            [fr.1, fr.2,
              env.reshape r1.1 l, env.reshape r1.2 l,
              env.reshape r2.1 l, env.reshape r2.2 l,
              env.reshape r3.1 l, env.reshape r3.2 l,
              env.reshape r4.1 l, env.reshape r4.2 l])], opt8)

/-- **C7.** Each worker compute function performs exactly one queue write,
and the first element of the written ResultTuple is the name of the first
input signal: this holds for `_moda_dynamic_bayesian_inference`,
`_dynamic_bayesian_inference`, and (whenever its dict lookups succeed and
it returns) `_biphase`. -/
theorem compute_fns_one_keyed_put {α : Type}
    (menv : ModaBayesEnv α) (benv : BayesEnv α) (penv : BiphaseEnv α)
    (s1 s2 : TimeSeries α) (ps : ParamSet α) (fs f0 : α) (fr : α × α)
    (opt : List (String × α))
    (out : List (String × List α) × List (String × α))
    (hb : _biphase penv s1 s2 fs f0 fr opt = some out) :
    (_moda_dynamic_bayesian_inference menv s1 s2 ps).1.map Prod.fst =
        [s1.name] ∧
      (_dynamic_bayesian_inference benv s1 s2 ps).1.map Prod.fst =
        [s1.name] ∧
      out.1.map Prod.fst = [s1.name] := by
  refine ⟨rfl, rfl, ?_⟩
  unfold _biphase at hb
  split at hb
  · exact Option.noConfusion hb
  · split at hb
    · exact Option.noConfusion hb
    · split at hb
      · exact Option.noConfusion hb
      · split at hb
        · exact Option.noConfusion hb
        · have h := Option.some.inj hb
          rw [← h]
          simp

/-- Concrete instance for C7 over `α := Nat`, with every opaque kernel a
constant. -/
def menvW : ModaBayesEnv Nat :=
  ⟨fun x => x, fun x => x, fun _ _ _ _ _ _ _ _ _ _ _ _ _ => [5, 6]⟩

def benvW : BayesEnv Nat where
  zero := 0
  loop_butter := fun _ _ _ _ => (1, 2)
  hilbert := fun x => x
  angle := fun x => x
  bayes_main := fun _ _ _ _ _ _ _ _ => (3, [4, 5], 6)
  dirc := fun _ _ => (7, 8, 9)
  CFprint := fun _ _ => (1, 2, 3, 4)
  mean2 := fun _ => 10
  squeeze := fun x => x
  surrogate_calc := fun _ _ _ _ _ => ([11, 12], 13)
  oneOver := fun x => x
  floorZero := fun _ _ => true
  kIndex := fun _ _ => 0
  sort2dDescend := fun x => x
  maxOf := fun _ => 14
  selectRow := fun _ _ => 15
  packList := fun _ => 16

def penvW : BiphaseEnv Nat where
  matlabDouble := fun x => x
  tolist := fun x => x
  complexList := fun x => [x]
  realPart := fun x => x
  imagPart := fun x => x
  packList := fun _ => 20
  calculate := fun _ _ _ _ _ _ => (21, 22)
  toNumpy2 := fun x => x
  lengthOf := fun _ => 2
  reshape := fun x _ => x

def ts1W : TimeSeries Nat := ⟨"sigA", 100, 10⟩

def ts2W : TimeSeries Nat := ⟨"sigB", 200, 10⟩

def psW : ParamSet Nat :=
  ⟨(1, 2), (3, 4), 5, 6, 7, 8, 2, 95⟩

def optW : List (String × Nat) :=
  [("PadLR1", 31), ("PadLR2", 32), ("twf1", 33), ("twf2", 34), ("other", 35)]

def biphaseOutW : List (String × List Nat) × List (String × Nat) :=
  (_biphase penvW ts1W ts2W 0 1 (2, 3) optW).getD ([], [])

theorem compute_fns_one_keyed_put_witness :
    (_moda_dynamic_bayesian_inference menvW ts1W ts2W psW).1.map Prod.fst =
        ["sigA"] ∧
      (_dynamic_bayesian_inference benvW ts1W ts2W psW).1.map Prod.fst =
        ["sigA"] ∧
      biphaseOutW.1.map Prod.fst = ["sigA"] :=
  compute_fns_one_keyed_put menvW benvW penvW ts1W ts2W psW 0 1 (2, 3)
    optW biphaseOutW rfl

/-- **C8 (counterexample).** The claim that no field of the parameter
record is added, removed, or rebound by the compute functions fails on
`_biphase`: at this concrete input the `opt` dict holds `twf1` before the
call (`del opt["twf1"]` in the source removes it), and after the call the
key is gone. -/
theorem biphase_mutates_params_counterexample :
    dictGet optW "twf1" = some 33 ∧
      (_biphase penvW ts1W ts2W 0 1 (2, 3) optW).map
        (fun r => dictGet r.2 "twf1") = some none :=
  ⟨rfl, rfl⟩

/-- **C8 (amended).** The Bayesian compute functions pass their parameter
object through unmodified, but `_biphase` mutates its `opt` dict: it
removes `twf1` and `twf2`, adds `twf1r`, `twf2r`, `twf1i`, `twf2i`, and
rebinds `PadLR1` and `PadLR2`; every other field of the parameter record is
left unchanged. -/
theorem param_passthrough_amended {α : Type}
    (menv : ModaBayesEnv α) (benv : BayesEnv α) (penv : BiphaseEnv α)
    (s1 s2 : TimeSeries α) (ps : ParamSet α) (fs f0 : α) (fr : α × α)
    (opt : List (String × α))
    (out : List (String × List α) × List (String × α))
    (hb : _biphase penv s1 s2 fs f0 fr opt = some out) :
    (_moda_dynamic_bayesian_inference menv s1 s2 ps).2 = ps ∧
      (_dynamic_bayesian_inference benv s1 s2 ps).2 = ps ∧
      dictGet out.2 "twf1" = none ∧
      dictGet out.2 "twf2" = none ∧
      (dictGet out.2 "twf1r").isSome = true ∧
      (dictGet out.2 "twf2r").isSome = true ∧
      (dictGet out.2 "twf1i").isSome = true ∧
      (dictGet out.2 "twf2i").isSome = true ∧
      ∀ k : String, k ∉ ["PadLR1", "PadLR2", "twf1", "twf2",
          "twf1r", "twf2r", "twf1i", "twf2i"] →
        dictGet out.2 k = dictGet opt k := by
  unfold _biphase at hb
  split at hb
  · exact Option.noConfusion hb
  · split at hb
    · exact Option.noConfusion hb
    · split at hb
      · exact Option.noConfusion hb
      · split at hb
        · exact Option.noConfusion hb
        · have h := Option.some.inj hb
          subst h
          refine ⟨rfl, rfl, ?_, ?_, ?_, ?_, ?_, ?_, ?_⟩
          · simp [dictGet_set_ne, dictGet_del_ne, dictGet_del_self]
          · simp [dictGet_set_ne, dictGet_del_ne, dictGet_del_self]
          · simp [dictGet_set_ne, dictGet_set_self]
          · simp [dictGet_set_ne, dictGet_set_self]
          · simp [dictGet_set_ne, dictGet_set_self]
          · simp [dictGet_set_self]
          · intro k hk
            simp only [List.mem_cons, List.not_mem_nil, or_false,
              not_or] at hk
            obtain ⟨h1, h2, h3, h4, h5, h6, h7, h8⟩ := hk
            show dictGet (dictSet (dictSet (dictSet (dictSet
                (dictDel (dictDel _ "twf1") "twf2")
                "twf1r" _) "twf2r" _) "twf1i" _) "twf2i" _) k = dictGet opt k
            rw [dictGet_set_ne _ _ _ _ h8, dictGet_set_ne _ _ _ _ h7,
              dictGet_set_ne _ _ _ _ h6, dictGet_set_ne _ _ _ _ h5,
              dictGet_del_ne _ _ _ h4, dictGet_del_ne _ _ _ h3]
            unfold biphasePadOpt
            rw [dictGet_set_ne _ _ _ _ h2, dictGet_set_ne _ _ _ _ h1]

/-- Concrete instance for the amended C8: the Bayesian functions leave the
concrete ParamSet untouched; `_biphase` on `optW` deletes `twf1` and leaves
the unrelated field `other` unchanged. -/
theorem param_passthrough_amended_witness :
    (_moda_dynamic_bayesian_inference menvW ts1W ts2W psW).2 = psW ∧
      (_dynamic_bayesian_inference benvW ts1W ts2W psW).2 = psW ∧
      dictGet biphaseOutW.2 "twf1" = none ∧
      dictGet biphaseOutW.2 "other" = dictGet optW "other" := by
  have h := param_passthrough_amended menvW benvW penvW ts1W ts2W psW 0 1
    (2, 3) optW biphaseOutW rfl
  exact ⟨h.1, h.2.1, h.2.2.1, h.2.2.2.2.2.2.2.2 "other" (by decide)⟩

/- ## Job dispatch

Modelled from the spec: the `JobDispatcher` is not in the repository. Spec
§4.2 guarantees one OS process spawned per WorkItem, spawning independent,
with workers running fully in parallel and "no explicit concurrency cap"
imposed by the source (restated in §9 as the unbounded-global-process-spawn
design note). -/

/-- A unit of analysis work: a named signal (pair) plus its opaque
payload. -/
structure WorkItem (α : Type) where
  name : String
  payload : α

/-- One spawned worker process: its pid and the name of the WorkItem it
computes. -/
structure WorkerHandle where
  pid : Nat
  key : String
deriving DecidableEq

/-- Modelled from the spec: `JobDispatcher.dispatch` (the dispatcher is not
in the repository) spawns one worker process per WorkItem, unconditionally
and without any admission control; pids are allocated from `basePid`. -/
def dispatch {α : Type} (basePid : Nat) (items : List (WorkItem α)) :
    List WorkerHandle :=
  items.enum.map (fun p => ⟨basePid + p.1, p.2.name⟩)

/-- Workers are neither awaited nor throttled, so immediately after
dispatch every spawned worker is running concurrently. -/
def runningAfterDispatch (handles : List WorkerHandle) : Nat :=
  handles.length

/-- Three equal work items for the C9 counterexample. -/
def itemsC9 : List (WorkItem Nat) :=
  [⟨"sigA", 0⟩, ⟨"sigB", 0⟩, ⟨"sigC", 0⟩]

/-- **C9 (counterexample).** The dispatcher enforces no concurrency cap:
on a host with available CPU parallelism 2, dispatching a batch of three
items leaves three workers running concurrently, exceeding the cap the
claim asserts. -/
theorem dispatch_exceeds_cpu_counterexample :
    runningAfterDispatch (dispatch 100 itemsC9) = 3 ∧ ¬(3 ≤ 2) := by
  constructor
  · rfl
  · decide

/-- **C9 (amended).** The dispatcher spawns one worker per work item with
no concurrency cap: the number of concurrently running workers equals the
batch size, bounded only by how many items the caller submits (the spec's
§4.2/§9 documented limitation). -/
theorem dispatch_uncapped {α : Type} (basePid : Nat)
    (items : List (WorkItem α)) :
    runningAfterDispatch (dispatch basePid items) = items.length := by
  simp [runningAfterDispatch, dispatch]
